import Mathlib

/-
Verification of the interview-scheduling core (slots/bookings, review voting,
event-sourced broadcast) against its natural-language specification.

The Rust source is shallowly embedded: the SQLite tables become lists of row
structures, each `pub async fn` of `core_logic/src/db.rs` (and the worker loops
of `api_server/src/bin/event_worker.rs`) becomes a pure Lean function from the
database state (plus the values the source obtains from the environment: the
current wall-clock time, freshly generated uuids, broker publish outcomes) to
the resulting state and outputs.  `i64` values are modelled as `Int`; the
`as u16` casts in the source are modelled as `% 65536`; SQL `ORDER BY` over a
column, and Rust's stable `sort_by`, are modelled as the stable
`insertionSort` on that column, which agrees with SQLite on states whose
rows are stored in insertion order with monotone timestamps.
-/

namespace Scheduling

/-! ### Booking subsystem (tables `slots`, `records`) -/

/-- Row of the `slots` table: id, start time, venue, capacity (`max_user`,
a `u16` in the source, hence `< 65536` in every state the program builds). -/
structure SlotRow where
  id : Int
  time : Int
  place : String
  maxUser : Nat
  deriving Repr, DecidableEq

/-- Row of the `records` (bookings) table. -/
structure RecordRow where
  telegramId : Int
  slotId : Int
  deriving Repr, DecidableEq

/-- Booking-side database state. -/
structure BookState where
  slots : List SlotRow
  records : List RecordRow
  deriving Repr, DecidableEq

/-- Embeds `SELECT ... FROM slots WHERE id = ?` (first matching row). -/
def findSlot (st : BookState) (slotId : Int) : Option SlotRow :=
  st.slots.find? (fun s => s.id == slotId)

/-- Embeds `SELECT COUNT(*) FROM records WHERE slot_id = ?`. -/
def countSlot (st : BookState) (slotId : Int) : Nat :=
  (st.records.filter (fun r => r.slotId == slotId)).length

/-- Embeds `core_logic::BookingError` (lib.rs).  `database` covers the
`Database(sqlx::Error)` variant produced by the `?` operator. -/
inductive BookingError where
  | slotFull (maxUsers : Nat) (currentCount : Nat)
  | slotNotFound
  | userNotFound
  | database
  deriving Repr, DecidableEq

/-- The opening `DELETE FROM records WHERE telegram_id = ?` of
`create_or_update_booking`. -/
def deleteUserRecords (st : BookState) (telegramId : Int) : BookState :=
  { st with records := st.records.filter (fun r => !(r.telegramId == telegramId)) }

/-- Embeds `create_or_update_booking` (db.rs 220-263): first `DELETE FROM records
WHERE telegram_id = ?`, then a conditional
`INSERT ... SELECT ... WHERE count < max_user`.  When the conditional insert
affects no row, the count and capacity are re-read and returned inside
`SlotFull` (both cast `as u16`); a vanished slot makes the capacity re-read
fail with a database error.  The state is returned alongside the result:
there is no enclosing transaction, so the delete persists on failure. -/
def create_or_update_booking (st : BookState) (telegramId : Int)
    (slotId : Option Int) : Except BookingError Unit × BookState :=
  let st1 : BookState := deleteUserRecords st telegramId
  match slotId with
  | none => (Except.ok (), st1)
  | some sid =>
    match findSlot st1 sid with
    | none => (Except.error BookingError.database, st1)
    | some slot =>
      if countSlot st1 sid < slot.maxUser then
        (Except.ok (), { st1 with records := st1.records ++ [⟨telegramId, sid⟩] })
      else
        (Except.error
          (BookingError.slotFull (slot.maxUser % 65536) (countSlot st1 sid % 65536)),
         st1)

/-- The capacity invariant of §8 of the spec: every slot's booking count is
bounded by its capacity. -/
def CapacityInv (st : BookState) : Prop :=
  ∀ s ∈ st.slots, countSlot st s.id ≤ s.maxUser

/-- Bookings of a slot held by recipients other than `tid` — the count the
conditional insert of `create_or_update_booking` sees after the initial
delete. -/
def countSlotExcluding (st : BookState) (slotId tid : Int) : Nat :=
  ((st.records.filter (fun r => !(r.telegramId == tid))).filter
    (fun r => r.slotId == slotId)).length

/-- Embeds `CreateBookingRequest` (lib.rs): the slot id arrives as a string. -/
structure CreateBookingRequest where
  slot_id : String
  telegram_id : Int
  deriving Repr, DecidableEq

/-- Rust's `str::parse::<i64>()`: optional sign, at least one ASCII digit,
nothing else, value within the `i64` range. -/
def parseI64 (s : String) : Option Int :=
  let rest : List Char :=
    match s.data with
    | '+' :: r => r
    | r => r
  let neg : Bool :=
    match s.data with
    | '-' :: _ => true
    | _ => false
  let digits : List Char := if neg then s.data.tail else rest
  if digits.isEmpty then none
  else if digits.all Char.isDigit then
    let n : Nat := digits.foldl (fun a c => a * 10 + (c.toNat - 48)) 0
    let v : Int := if neg then -(n : Int) else (n : Int)
    if -(2 ^ 63) ≤ v ∧ v < 2 ^ 63 then some v else none
  else none

/-- Embeds `create_booking` (db.rs 282-288): `payload.slot_id.parse::<i64>().unwrap()`
followed by `create_or_update_booking`.  The `unwrap` panics when the string
does not parse; the panic is modelled as `none`. -/
def create_booking (st : BookState) (payload : CreateBookingRequest) :
    Option (Except BookingError Unit × BookState) :=
  match parseI64 payload.slot_id with
  | none => none
  | some sid => some (create_or_update_booking st payload.telegram_id (some sid))

/-! ### Broadcast subsystem (tables `broadcast_events`, `broadcast_summaries`,
`broadcast_messages`, `processed_events`) -/

/-- Embeds `core_logic::MessageStatus`. -/
inductive MessageStatus where
  | pending
  | sent
  | failed
  | retrying
  deriving Repr, DecidableEq

/-- Embeds `core_logic::BroadcastStatus`. -/
inductive BroadcastStatus where
  | pending
  | inProgress
  | completed
  | failed
  deriving Repr, DecidableEq

/-- Embeds `core_logic::BroadcastMessageType`. -/
inductive BroadcastMessageType where
  | custom
  | signUp
  deriving Repr, DecidableEq

/-- Embeds `core_logic::User` as it appears in a `BroadcastCreated` payload. -/
structure BUser where
  telegramId : Int
  name : String
  deriving Repr, DecidableEq

/-- Embeds `core_logic::BroadcastEvent` (lib.rs), with the payload fields the
embedded operations read.  The `media_group` field is omitted: no operation
under verification touches it. -/
inductive BroadcastEvent where
  | broadcastCreated (broadcastId : String) (message : String)
      (targetUsers : List BUser) (messageType : Option BroadcastMessageType)
      (createdAt : Nat)
  | broadcastStarted (broadcastId : String) (startedAt : Nat)
  | messageSent (broadcastId : String) (telegramId : Int) (sentAt : Nat)
  | messageFailed (broadcastId : String) (telegramId : Int) (error : String)
      (failedAt : Nat)
  | messageRetrying (broadcastId : String) (telegramId : Int)
      (retryCount : Nat) (retryAt : Nat)
  | broadcastCompleted (broadcastId : String) (totalSent : Nat)
      (totalFailed : Nat) (completedAt : Nat)
  deriving Repr, DecidableEq

/-- Row of the append-only `broadcast_events` table. -/
structure EventRow where
  eventId : String
  broadcastId : String
  eventType : String
  payload : BroadcastEvent
  createdAt : Nat
  version : Int
  deriving Repr, DecidableEq

/-- Row of the `broadcast_summaries` read model. -/
structure SummaryRow where
  id : String
  message : String
  totalUsers : Int
  sentCount : Int
  failedCount : Int
  pendingCount : Int
  status : BroadcastStatus
  createdAt : Nat
  startedAt : Option Nat
  completedAt : Option Nat
  deriving Repr, DecidableEq

/-- Row of the `broadcast_messages` table. -/
structure MessageRow where
  broadcastId : String
  telegramId : Int
  status : MessageStatus
  error : Option String
  sentAt : Option Nat
  retryCount : Int
  messageType : Option BroadcastMessageType
  createdAt : Nat
  deriving Repr, DecidableEq

/-- Broadcast-side database state.  `processedEvents` is the
`(event_id, worker_id)` set of the `processed_events` table. -/
structure BState where
  events : List EventRow
  summaries : List SummaryRow
  messages : List MessageRow
  processedEvents : List (String × String)
  deriving Repr, DecidableEq

/-- The `BroadcastEvent::broadcast_id` accessor used by `save_broadcast_event`. -/
def BroadcastEvent.broadcastId : BroadcastEvent → String
  | .broadcastCreated bid _ _ _ _ => bid
  | .broadcastStarted bid _ => bid
  | .messageSent bid _ _ => bid
  | .messageFailed bid _ _ _ => bid
  | .messageRetrying bid _ _ _ => bid
  | .broadcastCompleted bid _ _ _ => bid

/-- Event-type string computed by `save_broadcast_event` (db.rs 610-628);
a `BroadcastCreated` with `message_type = Some(SignUp)` is recorded as
`"BroadcastCreatedSignUp"`. -/
def BroadcastEvent.typeString : BroadcastEvent → String
  | .broadcastCreated _ _ _ mt _ =>
    if mt == some BroadcastMessageType.signUp then "BroadcastCreatedSignUp"
    else "BroadcastCreated"
  | .broadcastStarted _ _ => "BroadcastStarted"
  | .messageSent _ _ _ => "MessageSent"
  | .messageFailed _ _ _ _ => "MessageFailed"
  | .messageRetrying _ _ _ _ => "MessageRetrying"
  | .broadcastCompleted _ _ _ _ => "BroadcastCompleted"

/-- Embeds `save_broadcast_event` (db.rs 610-655).  The fresh uuid and the wall
clock are inputs; the row is appended with `version = 1` as in the source. -/
def save_broadcast_event (st : BState) (eventId : String) (now : Nat)
    (event : BroadcastEvent) : BState :=
  { st with events := st.events ++
      [⟨eventId, event.broadcastId, event.typeString, event, now, 1⟩] }

/-- Embeds `is_event_processed` (db.rs 684-698). -/
def is_event_processed (st : BState) (eventId workerId : String) : Bool :=
  st.processedEvents.contains (eventId, workerId)

/-- Embeds `create_broadcast_summary` (db.rs 702-723): plain `INSERT`. -/
def create_broadcast_summary (st : BState) (summary : SummaryRow) : BState :=
  { st with summaries := st.summaries ++ [summary] }

/-- The six columns written by the summary `UPDATE` statement. -/
def applySummaryUpdate (u s : SummaryRow) : SummaryRow :=
  { s with sentCount := u.sentCount,
           failedCount := u.failedCount,
           pendingCount := u.pendingCount,
           status := u.status,
           startedAt := u.startedAt,
           completedAt := u.completedAt }

/-- Embeds `update_broadcast_summary` (db.rs 725-746): `UPDATE ... SET sent_count,
failed_count, pending_count, status, started_at, completed_at WHERE id = ?`.
Only those six columns are written. -/
def update_broadcast_summary (st : BState) (summary : SummaryRow) : BState :=
  { st with summaries := st.summaries.map (fun s =>
      if s.id == summary.id then applySummaryUpdate summary s else s) }

/-- Embeds `get_broadcast_summary` (db.rs 850-878). -/
def get_broadcast_summary (st : BState) (broadcastId : String) :
    Option SummaryRow :=
  st.summaries.find? (fun s => s.id == broadcastId)

/-- Embeds `SELECT COUNT(*) FROM broadcast_messages WHERE broadcast_id = ? AND
status = ?`. -/
def countMessages (st : BState) (broadcastId : String)
    (status : MessageStatus) : Nat :=
  (st.messages.filter (fun m =>
    m.broadcastId == broadcastId && m.status == status)).length

/-- The row the Summary Projector writes for a found summary `s`: the three
counters are recomputed from the message rows, and the status becomes
`Completed` (stamping `completed_at`) when nothing is pending and there are
users, else `InProgress` when there are users; with no users the stored
status is left unchanged — the source has no `else` branch. -/
def projectSummary (st : BState) (broadcastId : String) (now : Nat)
    (s : SummaryRow) : SummaryRow :=
  let pendingCount : Int := countMessages st broadcastId MessageStatus.pending
  let s1 : SummaryRow :=
    { s with sentCount := (countMessages st broadcastId MessageStatus.sent : Int),
             failedCount := (countMessages st broadcastId MessageStatus.failed : Int),
             pendingCount := pendingCount }
  if pendingCount == 0 && s1.totalUsers > 0 then
    { s1 with status := BroadcastStatus.completed, completedAt := some now }
  else if s1.totalUsers > 0 then
    { s1 with status := BroadcastStatus.inProgress }
  else s1

/-- Embeds `update_broadcast_summary_from_messages` (db.rs 795-848), the Summary
Projector: write the recomputed row (`projectSummary`) for the broadcast's
summary when it exists. -/
def update_broadcast_summary_from_messages (st : BState)
    (broadcastId : String) (now : Nat) : BState :=
  match get_broadcast_summary st broadcastId with
  | none => st
  | some s => update_broadcast_summary st (projectSummary st broadcastId now s)

/-- Embeds `create_broadcast_message` (db.rs 918-943): plain `INSERT`. -/
def create_broadcast_message (st : BState) (message : MessageRow) : BState :=
  { st with messages := st.messages ++ [message] }

/-- Embeds `update_broadcast_message` (db.rs 945-965): `UPDATE ... SET status,
error, sent_at, retry_count WHERE broadcast_id = ? AND telegram_id = ?`. -/
def update_broadcast_message (st : BState) (message : MessageRow) : BState :=
  { st with messages := st.messages.map (fun m =>
      if m.broadcastId == message.broadcastId &&
         m.telegramId == message.telegramId then
        { m with status := message.status, error := message.error,
                 sentAt := message.sentAt, retryCount := message.retryCount }
      else m) }

/-- Embeds `update_broadcast_message_status` (db.rs 967-998): update the row's
status/error/sent-at, then invoke the Summary Projector. -/
def update_broadcast_message_status (st : BState) (broadcastId : String)
    (telegramId : Int) (status : MessageStatus) (error : Option String)
    (now : Nat) : BState :=
  let sentAt : Option Nat :=
    if status == MessageStatus.sent then some now else none
  let st1 : BState :=
    { st with messages := st.messages.map (fun m =>
        if m.broadcastId == broadcastId && m.telegramId == telegramId then
          { m with status := status, error := error, sentAt := sentAt }
        else m) }
  update_broadcast_summary_from_messages st1 broadcastId now

/-- The `ORDER BY created_at ASC` relation on message rows. -/
def createdLe (a b : MessageRow) : Prop :=
  a.createdAt ≤ b.createdAt

instance : DecidableRel createdLe := fun a b => Nat.decLe a.createdAt b.createdAt

instance : IsTotal MessageRow createdLe :=
  ⟨fun a b => Nat.le_total a.createdAt b.createdAt⟩

instance : IsTrans MessageRow createdLe :=
  ⟨fun _ _ _ h h' => Nat.le_trans h h'⟩

/-- Embeds `get_broadcast_messages` (db.rs 1000-1078): filter by broadcast and
optional status, `ORDER BY created_at ASC` (stable sort on the stored list),
then `LIMIT ? OFFSET ?` with defaults 100 and 0. -/
def get_broadcast_messages (st : BState) (broadcastId : String)
    (status : Option MessageStatus) (limit offset : Option Nat) :
    List MessageRow :=
  let limit := limit.getD 100
  let offset := offset.getD 0
  let rows := st.messages.filter (fun m =>
    m.broadcastId == broadcastId &&
    (match status with
     | some s => m.status == s
     | none => true))
  ((rows.insertionSort createdLe).drop offset).take limit

/-- Embeds `core_logic::CreateBroadcastCommand`. -/
structure CreateBroadcastCommand where
  message : String
  messageType : Option BroadcastMessageType
  selectedExternalUsers : Option (List String)
  deriving Repr, DecidableEq

/-- Embeds `core_logic::BroadcastCreatedResponse`. -/
structure BroadcastCreatedResponse where
  broadcastId : String
  status : BroadcastStatus
  deriving Repr, DecidableEq

/-- Embeds `core_logic::RetryMessageCommand`. -/
structure RetryMessageCommand where
  broadcastId : String
  telegramId : Int
  deriving Repr, DecidableEq

/-- Per-recipient delivery command (`core_logic::BroadcastMessage`) as
published to the messages exchange. -/
structure DeliveryCmd where
  telegramId : Int
  message : String
  broadcastId : String
  messageType : Option BroadcastMessageType
  deriving Repr, DecidableEq

/-- Embeds `handle_create_broadcast` (db.rs 1082-1150).  The only validation is
`if let Some(...) = &command.selected_external_users`: a `None` recipient
field yields the error string `"No external users specified"`, while any
present list — including the empty one — proceeds to append the
`BroadcastCreated` event and insert a Pending summary with
`total_users = pending_count = |recipients|`.  Each recipient string is
parsed with `parse::<i64>().unwrap_or(0)`.  The fresh broadcast uuid, event
uuid and clock are inputs. -/
def handle_create_broadcast (st : BState) (command : CreateBroadcastCommand)
    (broadcastId eventId : String) (now : Nat) :
    Except String (BroadcastCreatedResponse × BroadcastEvent) × BState :=
  match command.selectedExternalUsers with
  | none => (Except.error "No external users specified", st)
  | some ids =>
    let users : List BUser := ids.map (fun tid =>
      ⟨(parseI64 tid).getD 0, "User " ++ tid⟩)
    let event : BroadcastEvent :=
      BroadcastEvent.broadcastCreated broadcastId command.message users
        command.messageType now
    let st1 := save_broadcast_event st eventId now event
    let summary : SummaryRow :=
      { id := broadcastId, message := command.message,
        totalUsers := users.length, sentCount := 0, failedCount := 0,
        pendingCount := users.length, status := BroadcastStatus.pending,
        createdAt := now, startedAt := none, completedAt := none }
    let st2 := create_broadcast_summary st1 summary
    (Except.ok (⟨broadcastId, BroadcastStatus.pending⟩, event), st2)

/-- Embeds `handle_retry_message` (db.rs 1152-1177): fetch the broadcast's Failed
messages with `limit 1, offset 0` (i.e. the earliest-created Failed row,
whatever its recipient), flip it to Retrying with `retry_count += 1`, and
append a `MessageRetrying` event carrying the recipient named in the
command.  Nothing is published to the broker, and with no Failed row the
state is untouched. -/
def handle_retry_message (st : BState) (command : RetryMessageCommand)
    (eventId : String) (now : Nat) : BState × List DeliveryCmd :=
  let rows := get_broadcast_messages st command.broadcastId
    (some MessageStatus.failed) (some 1) (some 0)
  match rows.head? with
  | none => (st, [])
  | some m =>
    let m1 : MessageRow :=
      { m with status := MessageStatus.retrying, retryCount := m.retryCount + 1 }
    let st1 := update_broadcast_message st m1
    let event : BroadcastEvent :=
      BroadcastEvent.messageRetrying command.broadcastId command.telegramId
        m1.retryCount.toNat now
    (save_broadcast_event st1 eventId now event, [])

/-! ### Broadcast Event Worker (api_server/src/bin/event_worker.rs) -/

/-- Embeds `get_users_for_broadcast` (db.rs 602-606).  The body is
`Ok(Vec::new())`: the source comments that the `users` table is going away
and returns the empty list unconditionally. -/
def get_users_for_broadcast (_st : BState)
    (_includeUsersWithoutTelegram : Bool) : List BUser :=
  []

/-- Helper `matchAt needle haystack`: does `needle` occur at the head of
`haystack`? -/
def matchAt : List Char → List Char → Bool
  | [], _ => true
  | _ :: _, [] => false
  | a :: as, b :: bs => a == b && matchAt as bs

/-- Helper `hasSub needle haystack`: does `needle` occur anywhere in `haystack`? -/
def hasSub (n : List Char) : List Char → Bool
  | [] => matchAt n []
  | b :: bs => matchAt n (b :: bs) || hasSub n bs

/-- Rust's `String::contains` on string slices. -/
def strContains (haystack needle : String) : Bool :=
  hasSub needle.data haystack.data

/-- Embeds `handle_event` (event_worker.rs 208-348).  For `BroadcastCreated` the
worker ignores the event's `target_users` payload and iterates over
`get_users_for_broadcast` instead; per user it sniffs the message type from
the summary text, publishes a delivery command (outcome given by
`publishOk`), and on a publish failure marks that user's row Failed; after
the loop it forces the summary to InProgress with a fresh `started_at`.
Every other event variant only logs.  Returns the handler result, the new
state and the list of commands published to the messages exchange. -/
def handle_event (st : BState) (event : BroadcastEvent)
    (publishOk : Int → Bool) (pubErr : String) (now : Nat) :
    Except String Unit × BState × List DeliveryCmd :=
  match event with
  | BroadcastEvent.broadcastCreated broadcastId _ _ _ _ =>
    let users := get_users_for_broadcast st false
    match get_broadcast_summary st broadcastId with
    | none => (Except.error "Broadcast summary not found", st, [])
    | some summary =>
      let step := fun (acc : BState × List DeliveryCmd) (user : BUser) =>
        let messageType : Option BroadcastMessageType :=
          if strContains summary.message "записаться на собеседование" ||
             strContains summary.message "🎉 Поздравляем" then
            some BroadcastMessageType.signUp
          else some BroadcastMessageType.custom
        let cmd : DeliveryCmd :=
          ⟨user.telegramId, summary.message, broadcastId, messageType⟩
        if publishOk user.telegramId then
          (acc.1, acc.2 ++ [cmd])
        else
          (update_broadcast_message_status acc.1 broadcastId user.telegramId
            MessageStatus.failed (some pubErr) now, acc.2)
      let r := users.foldl step (st, [])
      let st2 :=
        match get_broadcast_summary r.1 broadcastId with
        | some s =>
          update_broadcast_summary r.1
            { s with status := BroadcastStatus.inProgress, startedAt := some now }
        | none => r.1
      (Except.ok (), st2, r.2)
  | _ => (Except.ok (), st, [])

/-- One iteration of `process_events` (event_worker.rs 131-206) on a
successfully parsed delivery: call `handle_event`, log its result, ack.
The `processed_events` table is never consulted or written. -/
def workerStep (st : BState) (event : BroadcastEvent)
    (publishOk : Int → Bool) (pubErr : String) (now : Nat) :
    BState × List DeliveryCmd :=
  let r := handle_event st event publishOk pubErr now
  (r.2.1, r.2.2)

/-! ### Operations acting on one broadcast's read model

The three operation kinds the spec's monotonicity sentence ranges over:
the Delivery Worker's per-recipient status update (telegram_bot's
`handle_message` calling `update_broadcast_message_status`), the operator's
`RetryMessage`, and a bare Summary Projector recomputation. -/

/-- One operation on the read model of a fixed broadcast. -/
inductive BOp where
  | deliver (telegramId : Int) (ok : Bool) (error : String) (now : Nat)
  | retryMsg (telegramId : Int) (eventId : String) (now : Nat)
  | project (now : Nat)
  deriving Repr, DecidableEq

/-- Apply one operation, exactly as the corresponding source path does. -/
def applyOp (broadcastId : String) (st : BState) : BOp → BState
  | BOp.deliver telegramId ok error now =>
    if ok then
      update_broadcast_message_status st broadcastId telegramId
        MessageStatus.sent none now
    else
      update_broadcast_message_status st broadcastId telegramId
        MessageStatus.failed (some error) now
  | BOp.retryMsg telegramId eventId now =>
    (handle_retry_message st ⟨broadcastId, telegramId⟩ eventId now).1
  | BOp.project now =>
    update_broadcast_summary_from_messages st broadcastId now

/-- Run a sequence of operations. -/
def runOps (broadcastId : String) (st : BState) (ops : List BOp) : BState :=
  ops.foldl (applyOp broadcastId) st

/-- A delivery outcome is only ever reported once per message row (spec §5:
each row's delivery command is published exactly once), so a failure report
never lands on a row that is already Sent.  Retries and projector runs are
unrestricted. -/
def ValidOp (broadcastId : String) (st : BState) : BOp → Prop
  | BOp.deliver telegramId ok _ _ =>
    ok = true ∨
      ∀ m ∈ st.messages, m.broadcastId = broadcastId →
        m.telegramId = telegramId → m.status ≠ MessageStatus.sent
  | BOp.retryMsg _ _ _ => True
  | BOp.project _ => True

/-- Validity of a whole operation sequence, step by step. -/
def ValidOps (broadcastId : String) : BState → List BOp → Prop
  | _, [] => True
  | st, op :: ops =>
    ValidOp broadcastId st op ∧ ValidOps broadcastId (applyOp broadcastId st op) ops

/-- The schema's `UNIQUE(broadcast_id, telegram_id)` constraint on
`broadcast_messages`. -/
def MsgKeysUnique (st : BState) : Prop :=
  st.messages.Pairwise (fun a b =>
    ¬(a.broadcastId = b.broadcastId ∧ a.telegramId = b.telegramId))

/-- Consistency of a broadcast's summary with its message rows: the stored
`sent_count` never exceeds the number of Sent rows, and a Completed summary
has no Pending row and a positive `total_users` (the projector's own
post-state). -/
def SummaryInv (broadcastId : String) (st : BState) : Prop :=
  ∀ s, get_broadcast_summary st broadcastId = some s →
    s.sentCount ≤ (countMessages st broadcastId MessageStatus.sent : Int) ∧
    (s.status = BroadcastStatus.completed →
      countMessages st broadcastId MessageStatus.pending = 0 ∧ 0 < s.totalUsers)

/-- Combined invariant for the monotonicity analysis. -/
def BInv (broadcastId : String) (st : BState) : Prop :=
  MsgKeysUnique st ∧ SummaryInv broadcastId st

/-! ### Review voting subsystem (tables `votes`, `user_roles`) -/

/-- Row of the `votes` table.  `UNIQUE(survey_id, voter_telegram_id)` is the
claim primitive; the sentinels live in `comment`. -/
structure VoteRow where
  id : Int
  surveyId : Int
  voterTelegramId : Int
  decision : Int
  comment : Option String
  createdAt : Nat
  deriving Repr, DecidableEq

/-- Voting-side database state: `votes` plus `user_roles`
(`telegram_id ↦ role`, kept unique by `INSERT OR REPLACE`). -/
structure VState where
  votes : List VoteRow
  roles : List (Int × Int)
  deriving Repr, DecidableEq

/-- The SQL sentinel filter shared by the tally and the regular-router
queries: true exactly on real (non-sentinel) votes, i.e. a NULL comment or
one equal to neither `В обработке` nor `Инициализация`. -/
def isRealComment : Option String → Bool
  | none => true
  | some c => !(c == "В обработке") && !(c == "Инициализация")

/-- Embeds `SurveyStatus` (lib.rs). -/
inductive SurveyStatus where
  | inProgress
  | readyForReview
  | completed
  deriving Repr, DecidableEq

/-- Embeds `SurveyVoteSummary` (lib.rs). -/
structure SurveyVoteSummary where
  surveyId : Int
  totalVotes : Int
  approveVotes : Int
  rejectVotes : Int
  status : SurveyStatus
  hasResponsibleVote : Bool
  deriving Repr, DecidableEq

/-- Embeds `MIN_VOTES_FOR_REVIEW` (db.rs 27). -/
def MIN_VOTES_FOR_REVIEW : Int := 3

/-- Embeds `SELECT role FROM user_roles WHERE telegram_id = ?`. -/
def roleOf (st : VState) (telegramId : Int) : Option Int :=
  (st.roles.find? (fun r => r.1 == telegramId)).map (fun r => r.2)

/-- Real (non-sentinel) votes of a survey. -/
def realVotes (st : VState) (surveyId : Int) : List VoteRow :=
  st.votes.filter (fun v => v.surveyId == surveyId && isRealComment v.comment)

/-- Embeds `get_survey_vote_summary` (db.rs 1455-1515).  The approve/reject counts
exclude the sentinel comments (the grouped query carries the
`isRealComment` filter; in every state the program builds, real votes have
decision 0 or 1, so the per-group assignment of the source equals these two
counts).  `has_responsible_vote`, however, is a bare `EXISTS` join against
`user_roles.role = 1` with NO comment filter, and it alone decides
`Completed`. -/
def get_survey_vote_summary (st : VState) (surveyId : Int) :
    SurveyVoteSummary :=
  let approveVotes : Int :=
    ((realVotes st surveyId).filter (fun v => v.decision == 1)).length
  let rejectVotes : Int :=
    ((realVotes st surveyId).filter (fun v => !(v.decision == 1))).length
  let totalVotes := approveVotes + rejectVotes
  let hasResponsibleVote :=
    st.votes.any (fun v =>
      v.surveyId == surveyId && (roleOf st v.voterTelegramId == some 1))
  let status :=
    if hasResponsibleVote then SurveyStatus.completed
    else if totalVotes ≥ MIN_VOTES_FOR_REVIEW then SurveyStatus.readyForReview
    else SurveyStatus.inProgress
  ⟨surveyId, totalVotes, approveVotes, rejectVotes, status, hasResponsibleVote⟩

/-- The `real_count` column of the regular-router query: votes of the
survey whose comment passes the sentinel filter. -/
def realCountOf (st : VState) (surveyId : Int) : Int :=
  ((realVotes st surveyId).length : Int)

/-- The `processing_count` column of the regular-router query: in-flight
`В обработке` claim rows of the survey. -/
def processingCountOf (st : VState) (surveyId : Int) : Nat :=
  (st.votes.filter (fun v =>
    v.surveyId == surveyId && v.comment == some "В обработке")).length

/-- Sort key of the regular-router prioritisation:
`(MIN_VOTES_FOR_REVIEW - real_count).abs()`. -/
def distTo (realCount : Int) : Nat :=
  (MIN_VOTES_FOR_REVIEW - realCount).natAbs

/-- The comparator handed to the candidate `sort_by`. -/
def distLe (a b : Int × Int) : Prop :=
  distTo a.2 ≤ distTo b.2

instance : DecidableRel distLe := fun a b => Nat.decLe (distTo a.2) (distTo b.2)

instance : IsTotal (Int × Int) distLe :=
  ⟨fun a b => Nat.le_total (distTo a.2) (distTo b.2)⟩

instance : IsTrans (Int × Int) distLe :=
  ⟨fun _ _ _ h h' => Nat.le_trans h h'⟩

/-- Embeds `find_survey_for_regular_user` (db.rs 1729-1799).  Candidates are the
external users not yet touched by the voter; a candidate is kept when its
real (non-sentinel) vote count is `< MIN_VOTES_FOR_REVIEW` and it has no
in-flight `В обработке` claim row; the kept candidates are stably sorted
(Rust `sort_by` is stable) by `|MIN_VOTES_FOR_REVIEW − real_count|` and the
first is returned. -/
def find_survey_for_regular_user (st : VState) (allUsers : List Int)
    (votedSurveyIds : List Int) : Option Int :=
  let userTelegramIds := allUsers.filter (fun id => !(votedSurveyIds.contains id))
  if userTelegramIds.isEmpty then none
  else
    let candidates := userTelegramIds.filterMap (fun id =>
      if realCountOf st id < MIN_VOTES_FOR_REVIEW && processingCountOf st id == 0 then
        some (id, realCountOf st id)
      else none)
    let sorted := candidates.insertionSort distLe
    (sorted.head?).map (fun c => c.1)

/-- Embeds `find_survey_for_responsible_user` (db.rs 1802-1902).  The per-survey
count here is a bare `COUNT(*)` over ALL vote rows — sentinel claim and
init rows included — and a survey qualifies as soon as that raw count
reaches `MIN_VOTES_FOR_REVIEW` and no row by a role-1 voter exists; the
first qualifying external user in list order is returned. -/
def find_survey_for_responsible_user (st : VState) (allUsers : List Int) :
    Option Int :=
  if allUsers.isEmpty then none
  else
    let voteCount := fun (sid : Int) =>
      ((st.votes.filter (fun v => v.surveyId == sid)).length : Int)
    let hasResponsibleVote := fun (sid : Int) =>
      st.votes.any (fun v =>
        v.surveyId == sid && (roleOf st v.voterTelegramId == some 1))
    allUsers.find? (fun sid =>
      voteCount sid ≥ MIN_VOTES_FOR_REVIEW && !(hasResponsibleVote sid))

/-! ## Theorems -/

/-- C1: a `Book` operation preserves `count(bookings where slot=s) ≤
capacity(s)` for every slot (the conditional insert materialises only below
capacity), and on a slot whose bookings by others already reach its
capacity it fails with `SlotFull{capacity, capacity}`. -/
theorem create_or_update_booking_capacity (st : BookState) (tid sid : Int) :
    ((st.slots.map SlotRow.id).Nodup → CapacityInv st →
      CapacityInv (create_or_update_booking st tid (some sid)).2) ∧
    (∀ slot, findSlot st sid = some slot → slot.maxUser < 65536 →
      countSlotExcluding st sid tid = slot.maxUser →
      (create_or_update_booking st tid (some sid)).1 =
        Except.error (BookingError.slotFull slot.maxUser slot.maxUser)) := by
  have hsub : ∀ x : Int,
      countSlot (deleteUserRecords st tid) x ≤ countSlot st x := by
    intro x
    exact List.Sublist.length_le (List.Sublist.filter _ (List.filter_sublist _))
  constructor
  · intro hnodup hinv
    cases hfind : findSlot (deleteUserRecords st tid) sid with
    | none =>
      simp only [create_or_update_booking, hfind]
      refine fun s hs => ?_
      exact le_trans (hsub s.id) (hinv s hs)
    | some slot =>
      by_cases hlt : countSlot (deleteUserRecords st tid) sid < slot.maxUser
      · simp only [create_or_update_booking, hfind, if_pos hlt]
        refine fun s hs => ?_
        have hs' : s ∈ st.slots := hs
        have hfind' : (deleteUserRecords st tid).slots.find?
            (fun s => s.id == sid) = some slot := hfind
        by_cases hid : ((⟨tid, sid⟩ : RecordRow).slotId == s.id) = true
        · have hsid : sid = s.id := by simpa using hid
          have hslotmem : slot ∈ st.slots := List.mem_of_find?_eq_some hfind'
          have hsloteq := List.find?_some hfind'
          have hseq : s = slot := by
            apply List.inj_on_of_nodup_map hnodup hs' hslotmem
            simp only [beq_iff_eq] at hsloteq
            rw [hsloteq, hsid]
          show (((deleteUserRecords st tid).records
              ++ [(⟨tid, sid⟩ : RecordRow)]).filter (fun r => r.slotId == s.id)).length ≤ s.maxUser
          rw [List.filter_append]
          simp only [List.filter_cons, hid, List.filter_nil, List.length_append,
            if_true, List.length_cons, List.length_nil]
          have hmax : s.maxUser = slot.maxUser := by rw [hseq]
          have hlt' : countSlot (deleteUserRecords st tid) s.id < slot.maxUser := by
            rw [← hsid]
            exact hlt
          have hcs : countSlot (deleteUserRecords st tid) s.id =
              ((deleteUserRecords st tid).records.filter
                (fun r => r.slotId == s.id)).length := rfl
          omega
        · simp only [Bool.not_eq_true] at hid
          show (((deleteUserRecords st tid).records
              ++ [(⟨tid, sid⟩ : RecordRow)]).filter (fun r => r.slotId == s.id)).length ≤ s.maxUser
          rw [List.filter_append]
          simp only [List.filter_cons, hid, List.filter_nil, List.length_append,
            List.length_nil, Nat.add_zero]
          exact le_trans (hsub s.id) (hinv s hs')
      · simp only [create_or_update_booking, hfind, if_neg hlt]
        refine fun s hs => ?_
        exact le_trans (hsub s.id) (hinv s hs)
  · intro slot hfind hlt hcap
    have hc : countSlot (deleteUserRecords st tid) sid = slot.maxUser := hcap
    have hfind' : findSlot (deleteUserRecords st tid) sid = some slot := hfind
    simp only [create_or_update_booking, hfind']
    rw [if_neg (by rw [hc]; exact Nat.lt_irrefl _)]
    rw [hc, Nat.mod_eq_of_lt hlt]

/-- Witness for C1: slot 1 has capacity 1 and is occupied by recipient 5;
recipient 7's booking attempt keeps the invariant and fails with
`SlotFull{1, 1}`. -/
theorem create_or_update_booking_capacity_witness :
    CapacityInv (create_or_update_booking ⟨[⟨1, 0, "r", 1⟩], [⟨5, 1⟩]⟩ 7 (some 1)).2 ∧
    (create_or_update_booking ⟨[⟨1, 0, "r", 1⟩], [⟨5, 1⟩]⟩ 7 (some 1)).1 =
      Except.error (BookingError.slotFull 1 1) :=
  ⟨(create_or_update_booking_capacity ⟨[⟨1, 0, "r", 1⟩], [⟨5, 1⟩]⟩ 7 1).1
      (by decide) (by unfold CapacityInv; decide),
   (create_or_update_booking_capacity ⟨[⟨1, 0, "r", 1⟩], [⟨5, 1⟩]⟩ 7 1).2
      ⟨1, 0, "r", 1⟩ (by decide) (by decide) (by decide)⟩

/-- C9: when `Book(r, s)` fails (for any error, `SlotFull` included), the
recipient is left with no booking row at all — the opening delete persisted
and nothing restores the prior booking — so a failing call on a recipient
who held a booking still changes the state. -/
theorem booking_failure_leaves_no_booking (st : BookState) (tid sid : Int)
    (e : BookingError)
    (h : (create_or_update_booking st tid (some sid)).1 = Except.error e) :
    (create_or_update_booking st tid (some sid)).2.records.filter
      (fun r => r.telegramId == tid) = [] ∧
    ((∃ r ∈ st.records, r.telegramId = tid) →
      (create_or_update_booking st tid (some sid)).2 ≠ st) := by
  have hdel : (deleteUserRecords st tid).records.filter
      (fun r => r.telegramId == tid) = [] := by
    simp [deleteUserRecords, List.filter_filter]
  have main : (deleteUserRecords st tid).records.filter
      (fun r => r.telegramId == tid) = [] ∧
      ((∃ r ∈ st.records, r.telegramId = tid) → deleteUserRecords st tid ≠ st) := by
    refine ⟨hdel, ?_⟩
    rintro ⟨r, hr, hrt⟩ heq
    have hmem : r ∈ (deleteUserRecords st tid).records := by rw [heq]; exact hr
    simp only [deleteUserRecords, List.mem_filter] at hmem
    rw [hrt] at hmem
    simp at hmem
  cases hfind : findSlot (deleteUserRecords st tid) sid with
  | none =>
    simpa only [create_or_update_booking, hfind] using main
  | some slot =>
    by_cases hlt : countSlot (deleteUserRecords st tid) sid < slot.maxUser
    · simp only [create_or_update_booking, hfind, if_pos hlt] at h
      exact absurd h (by simp)
    · simpa only [create_or_update_booking, hfind, if_neg hlt] using main

/-- Witness for C9: recipient 7 holds a booking on slot 2; rebooking onto
the full slot 1 fails and leaves recipient 7 with no booking at all. -/
theorem booking_failure_leaves_no_booking_witness :
    (create_or_update_booking ⟨[⟨1, 0, "r", 1⟩], [⟨5, 1⟩, ⟨7, 2⟩]⟩ 7 (some 1)).2.records.filter
      (fun r => r.telegramId == 7) = [] ∧
    (create_or_update_booking ⟨[⟨1, 0, "r", 1⟩], [⟨5, 1⟩, ⟨7, 2⟩]⟩ 7 (some 1)).2 ≠
      ⟨[⟨1, 0, "r", 1⟩], [⟨5, 1⟩, ⟨7, 2⟩]⟩ := by
  have h := booking_failure_leaves_no_booking ⟨[⟨1, 0, "r", 1⟩], [⟨5, 1⟩, ⟨7, 2⟩]⟩
    7 1 (BookingError.slotFull 1 1) (by rfl)
  exact ⟨h.1, h.2 ⟨⟨7, 2⟩, by decide, rfl⟩⟩

/-- C10: `create_booking` calls `slot_id.parse::<i64>().unwrap()`; a
request whose `slot_id` string is not an integer (here `"abc"`) makes the
parse return `Err` and the `unwrap` panic (modelled as `none`), whatever
the database state — the operation is not total over its input type. -/
theorem create_booking_panics_on_bad_slot_id :
    parseI64 "abc" = none ∧
    ∀ st : BookState, create_booking st ⟨"abc", 1⟩ = none :=
  ⟨rfl, fun _ => rfl⟩

/-- C2: the Event Worker does not materialise message rows for the
recipients of a `BroadcastCreated` payload.  Concretely: create a broadcast
for recipient 10 and feed the resulting event to the worker with every
broker publish succeeding — no `BroadcastMessage` row appears, nothing is
published to the messages exchange, and the converged summary has
`sent + failed = 0`, not the claimed `= 1`.  (The worker iterates over
`get_users_for_broadcast`, which returns the empty list, and ignores the
event's `target_users`.) -/
theorem event_worker_drops_payload_recipients :
    (workerStep
        (handle_create_broadcast ⟨[], [], [], []⟩
          ⟨"hello", some BroadcastMessageType.custom, some ["10"]⟩ "b1" "e1" 0).2
        (BroadcastEvent.broadcastCreated "b1" "hello"
          [⟨10, "User 10"⟩] (some BroadcastMessageType.custom) 0)
        (fun _ => true) "err" 5).1.messages = [] ∧
    (workerStep
        (handle_create_broadcast ⟨[], [], [], []⟩
          ⟨"hello", some BroadcastMessageType.custom, some ["10"]⟩ "b1" "e1" 0).2
        (BroadcastEvent.broadcastCreated "b1" "hello"
          [⟨10, "User 10"⟩] (some BroadcastMessageType.custom) 0)
        (fun _ => true) "err" 5).2 = [] ∧
    (get_broadcast_summary
        (workerStep
          (handle_create_broadcast ⟨[], [], [], []⟩
            ⟨"hello", some BroadcastMessageType.custom, some ["10"]⟩ "b1" "e1" 0).2
          (BroadcastEvent.broadcastCreated "b1" "hello"
            [⟨10, "User 10"⟩] (some BroadcastMessageType.custom) 0)
          (fun _ => true) "err" 5).1 "b1").map
      (fun s => (s.totalUsers, s.sentCount + s.failedCount)) = some (1, 0) := by
  refine ⟨by decide, by decide, by decide⟩

/-- C3: the event-consumption loop has no idempotency guard.  A worker step
never writes `processed_events`, and its entire effect — the new database
state and the published delivery commands — is independent of whether
`(event_id, worker_id)` is already recorded there (`is_event_processed` is
never consulted): a re-delivered event is re-processed identically rather
than acked-and-skipped. -/
theorem event_worker_no_idempotency_guard (st : BState)
    (pe : List (String × String)) (event : BroadcastEvent)
    (publishOk : Int → Bool) (pubErr : String) (now : Nat) :
    (workerStep st event publishOk pubErr now).1.processedEvents =
      st.processedEvents ∧
    (workerStep { st with processedEvents := pe } event publishOk pubErr now).1 =
      { (workerStep st event publishOk pubErr now).1 with processedEvents := pe } ∧
    (workerStep { st with processedEvents := pe } event publishOk pubErr now).2 =
      (workerStep st event publishOk pubErr now).2 := by
  cases event with
  | broadcastCreated broadcastId message targetUsers messageType createdAt =>
    simp only [workerStep, handle_event, get_users_for_broadcast,
      List.foldl_nil, get_broadcast_summary, update_broadcast_summary]
    cases hfind : st.summaries.find? (fun s => s.id == broadcastId) <;>
      simp [hfind]
  | broadcastStarted broadcastId startedAt => exact ⟨rfl, rfl, rfl⟩
  | messageSent broadcastId telegramId sentAt => exact ⟨rfl, rfl, rfl⟩
  | messageFailed broadcastId telegramId error failedAt => exact ⟨rfl, rfl, rfl⟩
  | messageRetrying broadcastId telegramId retryCount retryAt =>
    exact ⟨rfl, rfl, rfl⟩
  | broadcastCompleted broadcastId totalSent totalFailed completedAt =>
    exact ⟨rfl, rfl, rfl⟩

/-- C4: the sentinel comments are NOT honoured by every tally query.
First conjunct: a survey whose only vote row is a privileged reviewer's
claim row (comment `В обработке`) gets `has_responsible_vote = true`
and status `Completed`, though it has zero real votes — the claim row alone
completes the survey.  Second conjunct: the privileged router's threshold
counts raw rows, so a survey with one `Инициализация` row and only two
real votes (raw count 3) is already routed to a privileged reviewer. -/
theorem tally_counts_sentinel_rows :
    get_survey_vote_summary ⟨[⟨1, 7, 99, 0, some "В обработке", 0⟩], [(99, 1)]⟩ 7 =
      ⟨7, 0, 0, 0, SurveyStatus.completed, true⟩ ∧
    (find_survey_for_responsible_user
        ⟨[⟨1, 8, 0, -1, some "Инициализация", 0⟩,
          ⟨2, 8, 11, 1, none, 1⟩,
          ⟨3, 8, 12, 1, none, 2⟩], []⟩ [8] = some 8 ∧
      realCountOf
        ⟨[⟨1, 8, 0, -1, some "Инициализация", 0⟩,
          ⟨2, 8, 11, 1, none, 1⟩,
          ⟨3, 8, 12, 1, none, 2⟩], []⟩ 8 = 2) := by
  refine ⟨by decide, by decide, by decide⟩

/-- Counterexample for C7: `CreateBroadcast` with a present-but-empty
recipient list does not fail — it returns `Ok` and creates both the
`BroadcastCreated` event and a Pending summary with `total_users = 0`. -/
theorem create_broadcast_accepts_empty_recipients :
    (handle_create_broadcast ⟨[], [], [], []⟩ ⟨"m", none, some []⟩ "b1" "e1" 0).1 =
      Except.ok (⟨"b1", BroadcastStatus.pending⟩,
        BroadcastEvent.broadcastCreated "b1" "m" [] none 0) ∧
    (handle_create_broadcast ⟨[], [], [], []⟩ ⟨"m", none, some []⟩ "b1" "e1" 0).2.summaries =
      [⟨"b1", "m", 0, 0, 0, 0, BroadcastStatus.pending, 0, none, none⟩] ∧
    (handle_create_broadcast ⟨[], [], [], []⟩ ⟨"m", none, some []⟩ "b1" "e1" 0).2.events.length = 1 := by
  refine ⟨by rfl, by decide, by decide⟩

/-- C7 as amended: the only recipient validation in
`handle_create_broadcast` is presence of the field.  A `None` recipient
field fails with the error string `"No external users specified"` and
leaves the state untouched; any `Some ids` — the empty list included —
succeeds, appending exactly one `BroadcastCreated` event and one Pending
summary with `total_users = pending_count = |ids|`. -/
theorem handle_create_broadcast_validation (st : BState) (msg : String)
    (mt : Option BroadcastMessageType) (ids : List String)
    (bid eid : String) (now : Nat) :
    handle_create_broadcast st ⟨msg, mt, none⟩ bid eid now =
      (Except.error "No external users specified", st) ∧
    (handle_create_broadcast st ⟨msg, mt, some ids⟩ bid eid now).1 =
      Except.ok (⟨bid, BroadcastStatus.pending⟩,
        BroadcastEvent.broadcastCreated bid msg
          (ids.map (fun tid => ⟨(parseI64 tid).getD 0, "User " ++ tid⟩)) mt now) ∧
    (handle_create_broadcast st ⟨msg, mt, some ids⟩ bid eid now).2.summaries =
      st.summaries ++
        [⟨bid, msg, ids.length, 0, 0, ids.length, BroadcastStatus.pending,
          now, none, none⟩] ∧
    (handle_create_broadcast st ⟨msg, mt, some ids⟩ bid eid now).2.events.length =
      st.events.length + 1 := by
  refine ⟨rfl, rfl, ?_, ?_⟩
  · simp [handle_create_broadcast, save_broadcast_event, create_broadcast_summary]
  · simp [handle_create_broadcast, save_broadcast_event, create_broadcast_summary]

/-- Counterexample for C8: with two Failed rows — recipient 10 (older,
`retry_count = 1`) and recipient 20 — `RetryMessage("b", 20)` does not
touch recipient 20's row: it flips recipient 10's row to Retrying with
`retry_count = 2` (no cap at 1), appends a `MessageRetrying` event that
nevertheless names recipient 20, and publishes nothing. -/
theorem retry_message_ignores_recipient :
    (handle_retry_message
        ⟨[], [], [⟨"b", 10, MessageStatus.failed, some "e1", none, 1, some BroadcastMessageType.custom, 1⟩,
                  ⟨"b", 20, MessageStatus.failed, some "e2", none, 0, some BroadcastMessageType.custom, 2⟩], []⟩
        ⟨"b", 20⟩ "ev1" 5).1.messages =
      [⟨"b", 10, MessageStatus.retrying, some "e1", none, 2, some BroadcastMessageType.custom, 1⟩,
       ⟨"b", 20, MessageStatus.failed, some "e2", none, 0, some BroadcastMessageType.custom, 2⟩] ∧
    (handle_retry_message
        ⟨[], [], [⟨"b", 10, MessageStatus.failed, some "e1", none, 1, some BroadcastMessageType.custom, 1⟩,
                  ⟨"b", 20, MessageStatus.failed, some "e2", none, 0, some BroadcastMessageType.custom, 2⟩], []⟩
        ⟨"b", 20⟩ "ev1" 5).2 = [] ∧
    (handle_retry_message
        ⟨[], [], [⟨"b", 10, MessageStatus.failed, some "e1", none, 1, some BroadcastMessageType.custom, 1⟩,
                  ⟨"b", 20, MessageStatus.failed, some "e2", none, 0, some BroadcastMessageType.custom, 2⟩], []⟩
        ⟨"b", 20⟩ "ev1" 5).1.events.map (fun e => e.payload) =
      [BroadcastEvent.messageRetrying "b" 20 2 5] := by
  refine ⟨by decide, by decide, by decide⟩

/-- Heads of `take 1` and of the list itself agree. -/
theorem head?_take_one {α : Type} (l : List α) : (l.take 1).head? = l.head? := by
  cases l <;> rfl

/-- C8 as amended: `RetryMessage(broadcast_id, recipient)` locates the
earliest-created Failed row of the broadcast — irrespective of the
commanded recipient — and, if one exists, flips that row to Retrying with
its retry-count incremented without any cap, appending a `MessageRetrying`
event that carries the commanded recipient; nothing is republished to the
broker.  With no Failed row the operation is a no-op (so rows already in
Retrying are never touched). -/
theorem handle_retry_message_spec (st : BState) (cmd : RetryMessageCommand)
    (eid : String) (now : Nat)
    (hsorted : st.messages.Pairwise createdLe) :
    (handle_retry_message st cmd eid now).2 = [] ∧
    (st.messages.filter (fun m => m.broadcastId == cmd.broadcastId &&
        m.status == MessageStatus.failed) = [] →
      handle_retry_message st cmd eid now = (st, [])) ∧
    (∀ m, (st.messages.filter (fun m => m.broadcastId == cmd.broadcastId &&
        m.status == MessageStatus.failed)).head? = some m →
      (handle_retry_message st cmd eid now).1.messages =
        st.messages.map (fun x =>
          if x.broadcastId == m.broadcastId && x.telegramId == m.telegramId then
            { x with status := MessageStatus.retrying, error := m.error,
                     sentAt := m.sentAt, retryCount := m.retryCount + 1 }
          else x) ∧
      (handle_retry_message st cmd eid now).1.events =
        st.events ++ [⟨eid, cmd.broadcastId, "MessageRetrying",
          BroadcastEvent.messageRetrying cmd.broadcastId cmd.telegramId
            (m.retryCount + 1).toNat now, now, 1⟩] ∧
      (handle_retry_message st cmd eid now).1.summaries = st.summaries) := by
  have hsortf : List.Sorted createdLe (st.messages.filter
      (fun m => m.broadcastId == cmd.broadcastId &&
        m.status == MessageStatus.failed)) :=
    List.Pairwise.filter _ hsorted
  have hrows : get_broadcast_messages st cmd.broadcastId
      (some MessageStatus.failed) (some 1) (some 0) =
      (st.messages.filter (fun m => m.broadcastId == cmd.broadcastId &&
        m.status == MessageStatus.failed)).take 1 := by
    simp only [get_broadcast_messages, Option.getD_some, List.drop_zero,
      List.Sorted.insertionSort_eq hsortf]
  constructor
  · simp only [handle_retry_message, hrows]
    cases hh : ((st.messages.filter (fun m => m.broadcastId == cmd.broadcastId &&
        m.status == MessageStatus.failed)).take 1).head? <;> simp
  constructor
  · intro hnil
    simp only [handle_retry_message, hrows, hnil, List.take_nil, List.head?_nil]
  · intro m hm
    have hm' : ((st.messages.filter (fun m => m.broadcastId == cmd.broadcastId &&
        m.status == MessageStatus.failed)).take 1).head? = some m := by
      rw [head?_take_one]
      exact hm
    simp only [handle_retry_message, hrows, hm']
    refine ⟨rfl, rfl, rfl⟩

/-- Witness for C8: on a state with no Failed rows at all the retry
operation returns the state unchanged and publishes nothing. -/
theorem handle_retry_message_spec_witness :
    handle_retry_message ⟨[], [], [], []⟩ ⟨"b", 20⟩ "ev1" 5 =
      (⟨[], [], [], []⟩, []) :=
  (handle_retry_message_spec ⟨[], [], [], []⟩ ⟨"b", 20⟩ "ev1" 5
    (by decide)).2.1 (by decide)

/-- Two distinct members of a list occur in one of the two orders. -/
theorem pair_sublist_of_mem {α : Type} {c d : α} :
    ∀ {l : List α}, c ∈ l → d ∈ l → c ≠ d →
      [c, d].Sublist l ∨ [d, c].Sublist l := by
  intro l
  induction l with
  | nil => intro hc; simp at hc
  | cons x t ih =>
    intro hc hd hne
    rcases List.mem_cons.mp hc with hcx | hct
    · subst hcx
      rcases List.mem_cons.mp hd with hdx | hdt
      · exact absurd hdx.symm hne
      · exact Or.inl (List.Sublist.cons₂ c (List.singleton_sublist.mpr hdt))
    · rcases List.mem_cons.mp hd with hdx | hdt
      · subst hdx
        exact Or.inr (List.Sublist.cons₂ d (List.singleton_sublist.mpr hct))
      · rcases ih hct hdt hne with h | h
        · exact Or.inl (List.Sublist.cons x h)
        · exact Or.inr (List.Sublist.cons x h)

/-- A pair `[a, x]` with `a ≠ x` cannot be a sublist of `x :: t` when `x`
does not recur in `t`. -/
theorem not_pair_sublist_cons_self {α : Type} {x a : α} {t : List α}
    (hnd : x ∉ t) (hne : a ≠ x) : ¬ ([a, x].Sublist (x :: t)) := by
  intro hsub
  cases hsub with
  | cons _ h => exact hnd (h.subset (by simp))
  | cons₂ _ h => exact hne rfl

/-- C5: whenever the regular-user router returns candidate `c`, then `c` is
an external user the voter has not touched, with strictly fewer than
`MIN_VOTES_FOR_REVIEW` real votes (so a candidate at exactly K real votes is
never returned) and no in-flight claim row; and `c` is optimal: every other
eligible candidate `d` has a real-vote count no closer to K, and on ties
`c` precedes `d` in insertion order. -/
theorem find_survey_for_regular_user_spec (st : VState)
    (allUsers votedSurveyIds : List Int) (c : Int)
    (hnodup : allUsers.Nodup)
    (h : find_survey_for_regular_user st allUsers votedSurveyIds = some c) :
    (c ∈ allUsers ∧ votedSurveyIds.contains c = false ∧
      realCountOf st c < MIN_VOTES_FOR_REVIEW ∧ processingCountOf st c = 0) ∧
    (∀ d ∈ allUsers, votedSurveyIds.contains d = false →
      realCountOf st d < MIN_VOTES_FOR_REVIEW → processingCountOf st d = 0 →
      distTo (realCountOf st c) ≤ distTo (realCountOf st d) ∧
      (distTo (realCountOf st d) = distTo (realCountOf st c) →
        d = c ∨ [c, d].Sublist
          (allUsers.filter (fun id => !(votedSurveyIds.contains id))))) := by
  classical
  set ids : List Int :=
    allUsers.filter (fun id => !(votedSurveyIds.contains id)) with hids
  set f : Int → Option (Int × Int) := fun id =>
    if realCountOf st id < MIN_VOTES_FOR_REVIEW && processingCountOf st id == 0 then
      some (id, realCountOf st id)
    else none with hf
  set cands : List (Int × Int) := ids.filterMap f with hcands
  set sorted : List (Int × Int) := cands.insertionSort distLe with hsorted
  have hidsnodup : ids.Nodup := hnodup.filter _
  have hinj : ∀ a a' (b : Int × Int), b ∈ f a → b ∈ f a' → a = a' := by
    intro a a' b hb hb'
    have h1 : b.1 = a := by
      simp only [hf] at hb
      split at hb
      · simp only [Option.mem_def, Option.some.injEq] at hb
        rw [← hb]
      · simp at hb
    have h2 : b.1 = a' := by
      simp only [hf] at hb'
      split at hb'
      · simp only [Option.mem_def, Option.some.injEq] at hb'
        rw [← hb']
      · simp at hb'
    rw [← h1, h2]
  have hcandsnodup : cands.Nodup := List.Nodup.filterMap hinj hidsnodup
  have hsortednodup : sorted.Nodup :=
    ((List.perm_insertionSort distLe cands).nodup_iff).mpr hcandsnodup
  -- extract the head of the sorted candidate list
  have h' : (sorted.head?).map (fun q => q.1) = some c := by
    simp only [find_survey_for_regular_user] at h
    split at h
    · exact absurd h (by simp)
    · exact h
  obtain ⟨p, hphead, hp1⟩ := Option.map_eq_some'.mp h'
  obtain ⟨rest, hrest⟩ : ∃ rest, sorted = p :: rest := by
    cases hs : sorted with
    | nil => rw [hs] at hphead; exact absurd hphead (by simp)
    | cons q t =>
      rw [hs] at hphead
      simp only [List.head?_cons, Option.some.injEq] at hphead
      exact ⟨t, by rw [hphead]⟩
  have hpmem : p ∈ cands :=
    (List.mem_insertionSort distLe).mp
      (by rw [← hsorted, hrest]; exact List.mem_cons_self p rest)
  obtain ⟨a, haids, hfa⟩ := List.mem_filterMap.mp hpmem
  have hcond : (realCountOf st a < MIN_VOTES_FOR_REVIEW &&
      processingCountOf st a == 0) = true := by
    by_contra hc
    simp only [hf] at hfa
    rw [if_neg hc] at hfa
    exact Option.noConfusion hfa
  have hpa : p = (a, realCountOf st a) := by
    simp only [hf] at hfa
    rw [if_pos hcond] at hfa
    exact (Option.some.inj hfa).symm
  have hac : a = c := by rw [← hp1, hpa]
  subst hac
  have hcmem : a ∈ allUsers := (List.mem_filter.mp haids).1
  have hcnotvoted : votedSurveyIds.contains a = false := by
    have := (List.mem_filter.mp haids).2
    simpa using this
  have hlt : realCountOf st a < MIN_VOTES_FOR_REVIEW := by
    have := (Bool.and_eq_true _ _).mp hcond
    exact of_decide_eq_true this.1
  have hproc : processingCountOf st a = 0 := by
    have := (Bool.and_eq_true _ _).mp hcond
    simpa using this.2
  refine ⟨⟨hcmem, hcnotvoted, hlt, hproc⟩, ?_⟩
  intro d hd hdnv hdlt hdproc
  have hdids : d ∈ ids := by
    rw [hids]
    exact List.mem_filter.mpr ⟨hd, by rw [hdnv]; rfl⟩
  have hfd : f d = some (d, realCountOf st d) := by
    have hcondd : (realCountOf st d < MIN_VOTES_FOR_REVIEW &&
        processingCountOf st d == 0) = true := by
      refine (Bool.and_eq_true _ _).mpr ⟨decide_eq_true hdlt, ?_⟩
      simp [hdproc]
    simp only [hf]
    rw [if_pos hcondd]
  have hdmem : (d, realCountOf st d) ∈ cands :=
    List.mem_filterMap.mpr ⟨d, hdids, hfd⟩
  have hpairwise : List.Pairwise distLe sorted := by
    rw [hsorted]
    exact List.sorted_insertionSort distLe cands
  have hdmemsorted : (d, realCountOf st d) ∈ sorted :=
    (List.mem_insertionSort distLe).mpr hdmem
  constructor
  · -- minimality of the head's distance
    rw [hrest] at hdmemsorted hpairwise
    rcases List.mem_cons.mp hdmemsorted with hdp | hdrest
    · rw [hpa] at hdp
      have heq : realCountOf st d = realCountOf st a := congrArg Prod.snd hdp
      rw [heq]
    · have := (List.pairwise_cons.mp hpairwise).1 _ hdrest
      rw [hpa] at this
      simpa only [distLe] using this
  · -- tie-breaking by insertion order
    intro hdist
    by_cases hdc : d = a
    · exact Or.inl hdc
    · rcases pair_sublist_of_mem haids hdids (Ne.symm hdc) with hsub | hsub
      · exact Or.inr hsub
      · exfalso
        have hfa2 : f a = some (a, realCountOf st a) := by rw [hfa, hpa]
        have hpairmap : List.filterMap f [d, a] =
            [(d, realCountOf st d), (a, realCountOf st a)] := by
          simp [hfd, hfa2]
        have hsubc : ([(d, realCountOf st d), (a, realCountOf st a)]).Sublist cands := by
          have h2 := List.Sublist.filterMap f hsub
          rw [hpairmap] at h2
          exact h2
        have hle : distLe (d, realCountOf st d) (a, realCountOf st a) := by
          simp only [distLe]
          rw [hdist]
        have hpairsub := List.pair_sublist_insertionSort hle hsubc
        rw [← hsorted, hrest, hpa] at hpairsub
        have hxnotin : (a, realCountOf st a) ∉ rest := by
          rw [hrest, hpa] at hsortednodup
          exact (List.nodup_cons.mp hsortednodup).1
        have hnepair : (d, realCountOf st d) ≠ (a, realCountOf st a) := by
          intro hcontra
          exact hdc (congrArg Prod.fst hcontra)
        exact not_pair_sublist_cons_self hxnotin hnepair hpairsub

/-- Witness for C5: with candidates 1 (one real vote) and 2 (two real
votes) the router picks 2, which is eligible and closest to the quorum. -/
theorem find_survey_for_regular_user_spec_witness :
    (2 : Int) ∈ [(1 : Int), 2] ∧
    realCountOf ⟨[⟨1, 1, 50, 1, none, 0⟩, ⟨2, 2, 51, 1, none, 1⟩,
      ⟨3, 2, 52, 0, none, 2⟩], []⟩ 2 < MIN_VOTES_FOR_REVIEW ∧
    distTo (realCountOf ⟨[⟨1, 1, 50, 1, none, 0⟩, ⟨2, 2, 51, 1, none, 1⟩,
      ⟨3, 2, 52, 0, none, 2⟩], []⟩ 2) ≤
      distTo (realCountOf ⟨[⟨1, 1, 50, 1, none, 0⟩, ⟨2, 2, 51, 1, none, 1⟩,
        ⟨3, 2, 52, 0, none, 2⟩], []⟩ 1) := by
  have h := find_survey_for_regular_user_spec
    ⟨[⟨1, 1, 50, 1, none, 0⟩, ⟨2, 2, 51, 1, none, 1⟩,
      ⟨3, 2, 52, 0, none, 2⟩], []⟩ [1, 2] [] 2 (by decide) (by decide)
  exact ⟨h.1.1, h.1.2.2.1,
    (h.2 1 (by decide) (by decide) (by decide) (by decide)).1⟩

/-- Counterexample for C6: build a one-recipient broadcast whose delivery
failed (summary Completed with `failed_count = 1`), then retry it and rerun
the projector: `failed_count` drops from 1 back to 0 — the projection is
not monotone in `failed_count`. -/
theorem failed_count_decreases_on_retry :
    (get_broadcast_summary
      (update_broadcast_message_status
        (create_broadcast_message
          (create_broadcast_summary ⟨[], [], [], []⟩
            ⟨"b", "m", 1, 0, 0, 1, BroadcastStatus.pending, 0, none, none⟩)
          ⟨"b", 10, MessageStatus.pending, none, none, 0, some BroadcastMessageType.custom, 1⟩)
        "b" 10 MessageStatus.failed (some "err") 2) "b").map
      (fun s => (s.failedCount, s.status)) =
      some (1, BroadcastStatus.completed) ∧
    (get_broadcast_summary
      (update_broadcast_summary_from_messages
        (handle_retry_message
          (update_broadcast_message_status
            (create_broadcast_message
              (create_broadcast_summary ⟨[], [], [], []⟩
                ⟨"b", "m", 1, 0, 0, 1, BroadcastStatus.pending, 0, none, none⟩)
              ⟨"b", 10, MessageStatus.pending, none, none, 0, some BroadcastMessageType.custom, 1⟩)
            "b" 10 MessageStatus.failed (some "err") 2)
          ⟨"b", 10⟩ "ev1" 3).1 "b" 4) "b").map
      (fun s => (s.failedCount, s.status)) =
      some (0, BroadcastStatus.completed) := by
  refine ⟨by decide, by decide⟩

/-- Filtering with a weaker predicate keeps at least as many elements. -/
theorem length_filter_le_of_imp {α : Type} (l : List α) (p q : α → Bool)
    (h : ∀ a ∈ l, p a = true → q a = true) :
    (l.filter p).length ≤ (l.filter q).length := by
  induction l with
  | nil => simp
  | cons x t ih =>
    simp only [List.filter_cons]
    have ht : ∀ a ∈ t, p a = true → q a = true := fun a ha => h a (by simp [ha])
    by_cases hp : p x = true
    · rw [if_pos hp, if_pos (h x (by simp) hp)]
      simpa using ih ht
    · rw [if_neg hp]
      split
      · exact Nat.le_succ_of_le (ih ht)
      · exact ih ht

/-- Filtering a mapped list counts the elements whose image satisfies the
predicate. -/
theorem length_filter_map_eq {α β : Type} (g : α → β) (l : List α) (p : β → Bool) :
    ((l.map g).filter p).length = (l.filter (fun a => p (g a))).length := by
  induction l with
  | nil => rfl
  | cons x t ih =>
    simp only [List.map_cons, List.filter_cons]
    by_cases hp : p (g x) = true
    · rw [if_pos hp, if_pos hp]
      simpa using ih
    · rw [if_neg hp, if_neg hp]
      exact ih

/-- Looking a broadcast up after the summary `UPDATE`: the found row gets
the six written columns when its id matches. -/
theorem get_update_summary (st : BState) (u : SummaryRow) (bid : String) :
    get_broadcast_summary (update_broadcast_summary st u) bid =
      (get_broadcast_summary st bid).map
        (fun s => if s.id == u.id then applySummaryUpdate u s else s) := by
  simp only [get_broadcast_summary, update_broadcast_summary]
  induction st.summaries with
  | nil => rfl
  | cons s t ih =>
    simp only [List.map_cons]
    have hid : (if s.id == u.id then applySummaryUpdate u s else s).id = s.id := by
      split
      · rfl
      · rfl
    cases hb : (s.id == bid) with
    | true =>
      have hid2 : ((if (s.id == u.id) = true then applySummaryUpdate u s
          else s).id == bid) = true := by rw [hid]; exact hb
      simp only [List.find?, hid2, hb]
      rfl
    | false =>
      have hid2 : ((if (s.id == u.id) = true then applySummaryUpdate u s
          else s).id == bid) = false := by rw [hid]; exact hb
      simp only [List.find?, hid2, hb]
      exact ih

/-- One projector run: it preserves the summary invariant, never lowers
`sent_count`, never regresses a Completed summary, and touches neither the
message rows nor a broadcast without a summary. -/
theorem projector_step (bid : String) (st : BState) (now : Nat)
    (hinv : SummaryInv bid st) :
    SummaryInv bid (update_broadcast_summary_from_messages st bid now) ∧
    (∀ s, get_broadcast_summary st bid = some s →
      ∃ s', get_broadcast_summary
          (update_broadcast_summary_from_messages st bid now) bid = some s' ∧
        s.sentCount ≤ s'.sentCount ∧
        (s.status = BroadcastStatus.completed →
          s'.status = BroadcastStatus.completed)) ∧
    (get_broadcast_summary st bid = none →
      update_broadcast_summary_from_messages st bid now = st) ∧
    (update_broadcast_summary_from_messages st bid now).messages = st.messages := by
  cases hget : get_broadcast_summary st bid with
  | none =>
    have hres : update_broadcast_summary_from_messages st bid now = st := by
      simp only [update_broadcast_summary_from_messages, hget]
    rw [hres]
    exact ⟨hinv, fun s hs => Option.noConfusion hs, fun _ => rfl, rfl⟩
  | some s =>
    have hres : update_broadcast_summary_from_messages st bid now =
        update_broadcast_summary st (projectSummary st bid now s) := by
      simp only [update_broadcast_summary_from_messages, hget]
    have hcount : ∀ (u : SummaryRow) (x : MessageStatus),
        countMessages (update_broadcast_summary st u) bid x =
          countMessages st bid x := fun _ _ => rfl
    have hid2 : (projectSummary st bid now s).id = s.id := by
      simp only [projectSummary]
      split
      · rfl
      · split
        · rfl
        · rfl
    have hsent2 : (projectSummary st bid now s).sentCount =
        (countMessages st bid MessageStatus.sent : Int) := by
      simp only [projectSummary]
      split
      · rfl
      · split
        · rfl
        · rfl
    have hget' : get_broadcast_summary
        (update_broadcast_summary st (projectSummary st bid now s)) bid =
        some (applySummaryUpdate (projectSummary st bid now s) s) := by
      rw [get_update_summary, hget]
      simp only [Option.map_some']
      rw [if_pos (by rw [hid2]; exact beq_self_eq_true _)]
    have hstat2 : s.status = BroadcastStatus.completed →
        (projectSummary st bid now s).status = BroadcastStatus.completed := by
      intro hcompl
      obtain ⟨hpend0, htotpos⟩ := (hinv s hget).2 hcompl
      simp only [projectSummary]
      split
      next hc => rfl
      next hc =>
        exfalso
        apply hc
        refine (Bool.and_eq_true _ _).mpr ⟨?_, ?_⟩
        · rw [hpend0]
          rfl
        · exact decide_eq_true htotpos
    have hcompl2 : (projectSummary st bid now s).status = BroadcastStatus.completed →
        countMessages st bid MessageStatus.pending = 0 ∧
        0 < s.totalUsers := by
      intro hcs
      simp only [projectSummary] at hcs
      split at hcs
      next hc =>
        have hand := (Bool.and_eq_true _ _).mp hc
        have hz := beq_iff_eq.mp hand.1
        have htot := of_decide_eq_true hand.2
        constructor
        · exact_mod_cast hz
        · exact htot
      next hc =>
        split at hcs
        next hc2 => exact absurd hcs (by simp)
        next hc2 =>
          have hss : s.status = BroadcastStatus.completed := hcs
          exact (hinv s hget).2 hss
    rw [hres]
    refine ⟨?_, ?_, ?_, rfl⟩
    · intro sx hsx
      rw [hget'] at hsx
      have hsxe : sx = applySummaryUpdate (projectSummary st bid now s) s :=
        (Option.some.inj hsx).symm
      subst hsxe
      constructor
      · rw [hcount]
        show (projectSummary st bid now s).sentCount ≤
          (countMessages st bid MessageStatus.sent : Int)
        rw [hsent2]
      · intro hcs
        have hp := hcompl2 hcs
        refine ⟨?_, ?_⟩
        · rw [hcount]
          exact hp.1
        · exact hp.2
    · intro s0 hs0
      have hse : s0 = s := (Option.some.inj hs0).symm
      subst hse
      refine ⟨applySummaryUpdate (projectSummary st bid now s0) s0, hget', ?_, ?_⟩
      · show s0.sentCount ≤ (projectSummary st bid now s0).sentCount
        rw [hsent2]
        exact (hinv s0 hget).1
      · intro hcompl
        show (projectSummary st bid now s0).status = BroadcastStatus.completed
        exact hstat2 hcompl
    · intro hnone
      exact Option.noConfusion hnone

/-- A message-rows-only rewrite that cannot lose Sent rows and cannot
create Pending rows preserves the combined invariant and the summary
lookup. -/
theorem map_rows_facts (st : BState) (bid : String) (g : MessageRow → MessageRow)
    (hkeys : ∀ m, (g m).broadcastId = m.broadcastId ∧
      (g m).telegramId = m.telegramId)
    (hsent : ∀ m ∈ st.messages,
      (m.broadcastId == bid && m.status == MessageStatus.sent) = true →
      ((g m).broadcastId == bid && (g m).status == MessageStatus.sent) = true)
    (hpend : ∀ m ∈ st.messages,
      ((g m).broadcastId == bid && (g m).status == MessageStatus.pending) = true →
      (m.broadcastId == bid && m.status == MessageStatus.pending) = true)
    (hinv : BInv bid st) :
    BInv bid { st with messages := st.messages.map g } ∧
    get_broadcast_summary { st with messages := st.messages.map g } bid =
      get_broadcast_summary st bid := by
  have hcsent : countMessages st bid MessageStatus.sent ≤
      countMessages { st with messages := st.messages.map g } bid
        MessageStatus.sent := by
    show (st.messages.filter _).length ≤ ((st.messages.map g).filter _).length
    rw [length_filter_map_eq]
    exact length_filter_le_of_imp _ _ _ hsent
  have hcpend : countMessages { st with messages := st.messages.map g } bid
      MessageStatus.pending ≤ countMessages st bid MessageStatus.pending := by
    show ((st.messages.map g).filter _).length ≤ (st.messages.filter _).length
    rw [length_filter_map_eq]
    exact length_filter_le_of_imp _ _ _ hpend
  refine ⟨⟨?_, ?_⟩, rfl⟩
  · -- key uniqueness survives a key-preserving map
    refine List.Pairwise.map g ?_ hinv.1
    intro a b hab hcontra
    exact hab ⟨((hkeys a).1).symm.trans (hcontra.1.trans (hkeys b).1),
      ((hkeys a).2).symm.trans (hcontra.2.trans (hkeys b).2)⟩
  · intro s hs
    have hs' : get_broadcast_summary st bid = some s := hs
    refine ⟨le_trans (hinv.2 s hs').1 (by exact_mod_cast hcsent), ?_⟩
    intro hc
    obtain ⟨h0, ht⟩ := (hinv.2 s hs').2 hc
    exact ⟨Nat.le_zero.mp (h0 ▸ hcpend), ht⟩

/-- A delivery-outcome update (`update_broadcast_message_status`) with a
non-Pending status that either reports Sent or hits no Sent row preserves
the invariant, keeps `sent_count` monotone and never un-completes the
summary. -/
theorem update_status_step (st : BState) (bid : String) (tid : Int)
    (status : MessageStatus) (error : Option String) (now : Nat)
    (hinv : BInv bid st)
    (hnp : status ≠ MessageStatus.pending)
    (hns : status = MessageStatus.sent ∨
      ∀ m ∈ st.messages, m.broadcastId = bid → m.telegramId = tid →
        m.status ≠ MessageStatus.sent) :
    BInv bid (update_broadcast_message_status st bid tid status error now) ∧
    (∀ s, get_broadcast_summary st bid = some s →
      ∃ s', get_broadcast_summary
          (update_broadcast_message_status st bid tid status error now) bid =
            some s' ∧
        s.sentCount ≤ s'.sentCount ∧
        (s.status = BroadcastStatus.completed →
          s'.status = BroadcastStatus.completed)) ∧
    (get_broadcast_summary st bid = none →
      get_broadcast_summary
        (update_broadcast_message_status st bid tid status error now) bid =
          none) := by
  set g : MessageRow → MessageRow := fun m =>
    if m.broadcastId == bid && m.telegramId == tid then
      { m with status := status, error := error,
               sentAt := if status == MessageStatus.sent then some now else none }
    else m with hg
  have hrew : update_broadcast_message_status st bid tid status error now =
      update_broadcast_summary_from_messages
        { st with messages := st.messages.map g } bid now := rfl
  have hkeys : ∀ m, (g m).broadcastId = m.broadcastId ∧
      (g m).telegramId = m.telegramId := by
    intro m
    simp only [hg]
    split
    · exact ⟨rfl, rfl⟩
    · exact ⟨rfl, rfl⟩
  have hsent : ∀ m ∈ st.messages,
      (m.broadcastId == bid && m.status == MessageStatus.sent) = true →
      ((g m).broadcastId == bid && (g m).status == MessageStatus.sent) = true := by
    intro m hm hp
    simp only [hg]
    split
    next hcond =>
      rcases hns with hsent' | hguard
      · subst hsent'
        exact (Bool.and_eq_true _ _).mpr ⟨((Bool.and_eq_true _ _).mp hp).1, rfl⟩
      · exfalso
        have hkey := (Bool.and_eq_true _ _).mp hcond
        exact hguard m hm (beq_iff_eq.mp hkey.1) (beq_iff_eq.mp hkey.2)
          (beq_iff_eq.mp ((Bool.and_eq_true _ _).mp hp).2)
    next hcond => exact hp
  have hpend : ∀ m ∈ st.messages,
      ((g m).broadcastId == bid && (g m).status == MessageStatus.pending) = true →
      (m.broadcastId == bid && m.status == MessageStatus.pending) = true := by
    intro m hm hp
    simp only [hg] at hp
    split at hp
    next hcond =>
      exfalso
      exact hnp (beq_iff_eq.mp ((Bool.and_eq_true _ _).mp hp).2)
    next hcond => exact hp
  obtain ⟨hinv1, hget1⟩ := map_rows_facts st bid g hkeys hsent hpend hinv
  obtain ⟨pinv, psome, pnone, pmsg⟩ :=
    projector_step bid { st with messages := st.messages.map g } now hinv1.2
  rw [hrew]
  refine ⟨⟨?_, pinv⟩, ?_, ?_⟩
  · show (update_broadcast_summary_from_messages _ bid now).messages.Pairwise _
    rw [pmsg]
    exact hinv1.1
  · intro s hs
    exact psome s (by rw [hget1]; exact hs)
  · intro hn
    have hn1 : get_broadcast_summary
        { st with messages := st.messages.map g } bid = none := by
      rw [hget1]; exact hn
    rw [pnone hn1]
    exact hn1

/-- Lemma: `RetryMessage` preserves the invariant and leaves the summary row
untouched. -/
theorem retry_step (st : BState) (bid : String) (tid : Int) (eid : String)
    (now : Nat) (hinv : BInv bid st) :
    BInv bid (handle_retry_message st ⟨bid, tid⟩ eid now).1 ∧
    get_broadcast_summary (handle_retry_message st ⟨bid, tid⟩ eid now).1 bid =
      get_broadcast_summary st bid := by
  cases hhead : (get_broadcast_messages st bid (some MessageStatus.failed)
      (some 1) (some 0)).head? with
  | none =>
    have hrew : (handle_retry_message st ⟨bid, tid⟩ eid now).1 = st := by
      simp only [handle_retry_message, hhead]
    rw [hrew]
    exact ⟨hinv, rfl⟩
  | some m0 =>
    have h1 : m0 ∈ get_broadcast_messages st bid (some MessageStatus.failed)
        (some 1) (some 0) := List.mem_of_mem_head? hhead
    have h2 : m0 ∈ ((st.messages.filter (fun m => m.broadcastId == bid &&
        m.status == MessageStatus.failed)).insertionSort createdLe).drop 0 :=
      List.mem_of_mem_take h1
    rw [List.drop_zero] at h2
    have h4 := (List.mem_insertionSort createdLe).mp h2
    obtain ⟨hm0mem, hm0pred⟩ := List.mem_filter.mp h4
    have hm0bid : m0.broadcastId = bid :=
      beq_iff_eq.mp ((Bool.and_eq_true _ _).mp hm0pred).1
    have hm0fail : m0.status = MessageStatus.failed :=
      beq_iff_eq.mp ((Bool.and_eq_true _ _).mp hm0pred).2
    set g : MessageRow → MessageRow := fun m =>
      if m.broadcastId == m0.broadcastId && m.telegramId == m0.telegramId then
        { m with status := MessageStatus.retrying, error := m0.error,
                 sentAt := m0.sentAt, retryCount := m0.retryCount + 1 }
      else m with hg
    have hrew : (handle_retry_message st ⟨bid, tid⟩ eid now).1 =
        save_broadcast_event { st with messages := st.messages.map g } eid now
          (BroadcastEvent.messageRetrying bid tid (m0.retryCount + 1).toNat now) := by
      simp only [handle_retry_message, hhead]
      rfl
    have hkeys : ∀ m, (g m).broadcastId = m.broadcastId ∧
        (g m).telegramId = m.telegramId := by
      intro m
      simp only [hg]
      split
      · exact ⟨rfl, rfl⟩
      · exact ⟨rfl, rfl⟩
    have hsymm : Symmetric (fun (a b : MessageRow) =>
        ¬(a.broadcastId = b.broadcastId ∧ a.telegramId = b.telegramId)) := by
      intro a b hab hc
      exact hab ⟨hc.1.symm, hc.2.symm⟩
    have hsent : ∀ m ∈ st.messages,
        (m.broadcastId == bid && m.status == MessageStatus.sent) = true →
        ((g m).broadcastId == bid && (g m).status == MessageStatus.sent) = true := by
      intro m hm hp
      simp only [hg]
      split
      next hcond =>
        exfalso
        have hkey := (Bool.and_eq_true _ _).mp hcond
        have hk1 : m.broadcastId = m0.broadcastId := beq_iff_eq.mp hkey.1
        have hk2 : m.telegramId = m0.telegramId := beq_iff_eq.mp hkey.2
        have hms : m.status = MessageStatus.sent :=
          beq_iff_eq.mp ((Bool.and_eq_true _ _).mp hp).2
        by_cases hme : m = m0
        · rw [hme, hm0fail] at hms
          exact MessageStatus.noConfusion hms
        · exact (List.Pairwise.forall hsymm hinv.1 hm hm0mem hme) ⟨hk1, hk2⟩
      next hcond => exact hp
    have hpend : ∀ m ∈ st.messages,
        ((g m).broadcastId == bid && (g m).status == MessageStatus.pending) = true →
        (m.broadcastId == bid && m.status == MessageStatus.pending) = true := by
      intro m hm hp
      simp only [hg] at hp
      split at hp
      next hcond =>
        exfalso
        have := beq_iff_eq.mp ((Bool.and_eq_true _ _).mp hp).2
        exact MessageStatus.noConfusion this
      next hcond => exact hp
    obtain ⟨hinv1, hget1⟩ := map_rows_facts st bid g hkeys hsent hpend hinv
    rw [hrew]
    refine ⟨⟨hinv1.1, ?_⟩, ?_⟩
    · intro s hs
      exact hinv1.2 s hs
    · exact hget1

/-- One valid operation preserves the invariant, never lowers the stored
`sent_count` and never regresses a Completed summary. -/
theorem applyOp_step (bid : String) (st : BState) (op : BOp)
    (hinv : BInv bid st) (hok : ValidOp bid st op) :
    BInv bid (applyOp bid st op) ∧
    (∀ s, get_broadcast_summary st bid = some s →
      ∃ s', get_broadcast_summary (applyOp bid st op) bid = some s' ∧
        s.sentCount ≤ s'.sentCount ∧
        (s.status = BroadcastStatus.completed →
          s'.status = BroadcastStatus.completed)) ∧
    (get_broadcast_summary st bid = none →
      get_broadcast_summary (applyOp bid st op) bid = none) := by
  cases op with
  | deliver tid ok err now =>
    cases ok with
    | true =>
      have h := update_status_step st bid tid MessageStatus.sent none now hinv
        (by intro hc; exact MessageStatus.noConfusion hc) (Or.inl rfl)
      simpa only [applyOp, if_pos] using h
    | false =>
      have hguard : ∀ m ∈ st.messages, m.broadcastId = bid →
          m.telegramId = tid → m.status ≠ MessageStatus.sent := by
        rcases hok with hok | hguard
        · exact absurd hok (by simp)
        · exact hguard
      have h := update_status_step st bid tid MessageStatus.failed (some err) now
        hinv (by intro hc; exact MessageStatus.noConfusion hc) (Or.inr hguard)
      simpa only [applyOp, if_neg] using h
  | retryMsg tid eid now =>
    obtain ⟨hinv', hget⟩ := retry_step st bid tid eid now hinv
    refine ⟨hinv', ?_, ?_⟩
    · intro s hs
      exact ⟨s, by rw [applyOp, hget]; exact hs, le_refl _, fun h => h⟩
    · intro hn
      rw [applyOp, hget]
      exact hn
  | project now =>
    obtain ⟨pinv, psome, pnone, pmsg⟩ := projector_step bid st now hinv.2
    refine ⟨⟨?_, pinv⟩, psome, ?_⟩
    · show (update_broadcast_summary_from_messages st bid now).messages.Pairwise _
      rw [pmsg]
      exact hinv.1
    · intro hn
      rw [applyOp, pnone hn]
      exact hn

/-- C6 as amended: across any sequence of delivery updates (each reporting
the outcome of a row's single delivery command), retries and projector
recomputations, a broadcast's stored `sent_count` never decreases and its
status never regresses from Completed (so never back to InProgress);
`failed_count`, by contrast, does decrease when a Failed row is flipped to
Retrying and the projector recomputes —
see `failed_count_decreases_on_retry`. -/
theorem broadcast_summary_monotone (bid : String) (st : BState)
    (ops : List BOp) (hinv : BInv bid st) (hval : ValidOps bid st ops) :
    BInv bid (runOps bid st ops) ∧
    (∀ s, get_broadcast_summary st bid = some s →
      ∃ s', get_broadcast_summary (runOps bid st ops) bid = some s' ∧
        s.sentCount ≤ s'.sentCount ∧
        (s.status = BroadcastStatus.completed →
          s'.status = BroadcastStatus.completed)) := by
  induction ops generalizing st with
  | nil =>
    exact ⟨hinv, fun s hs => ⟨s, hs, le_refl _, fun h => h⟩⟩
  | cons op ops ih =>
    obtain ⟨hok, hval'⟩ := hval
    obtain ⟨hinv1, hsome1, _⟩ := applyOp_step bid st op hinv hok
    obtain ⟨hinvN, hsomeN⟩ := ih (applyOp bid st op) hinv1 hval'
    refine ⟨hinvN, ?_⟩
    intro s hs
    obtain ⟨s1, hs1, hle1, hc1⟩ := hsome1 s hs
    obtain ⟨s', hs', hle', hc'⟩ := hsomeN s1 hs1
    exact ⟨s', hs', le_trans hle1 hle', fun h => hc' (hc1 h)⟩

/-- Witness for C6: on a completed one-recipient broadcast with a Failed
row, retry followed by a projector run keeps the summary Completed and
keeps `sent_count ≥ 0`. -/
theorem broadcast_summary_monotone_witness :
    ∃ s', get_broadcast_summary
        (runOps "b"
          ⟨[], [⟨"b", "m", 1, 0, 1, 0, BroadcastStatus.completed, 0, none, some 2⟩],
           [⟨"b", 10, MessageStatus.failed, some "err", none, 0,
             some BroadcastMessageType.custom, 1⟩], []⟩
          [BOp.retryMsg 10 "ev1" 3, BOp.project 4]) "b" = some s' ∧
      (0 : Int) ≤ s'.sentCount ∧ s'.status = BroadcastStatus.completed := by
  have hinv : BInv "b"
      ⟨[], [⟨"b", "m", 1, 0, 1, 0, BroadcastStatus.completed, 0, none, some 2⟩],
       [⟨"b", 10, MessageStatus.failed, some "err", none, 0,
         some BroadcastMessageType.custom, 1⟩], []⟩ := by
    constructor
    · unfold MsgKeysUnique
      decide
    · intro s hs
      have hse : s = ⟨"b", "m", 1, 0, 1, 0, BroadcastStatus.completed, 0, none, some 2⟩ := by
        have : get_broadcast_summary
            ⟨[], [⟨"b", "m", 1, 0, 1, 0, BroadcastStatus.completed, 0, none, some 2⟩],
             [⟨"b", 10, MessageStatus.failed, some "err", none, 0,
               some BroadcastMessageType.custom, 1⟩], []⟩ "b" =
            some ⟨"b", "m", 1, 0, 1, 0, BroadcastStatus.completed, 0, none, some 2⟩ := by
          decide
        exact (Option.some.inj (this.symm.trans hs)).symm
      subst hse
      exact ⟨by decide, fun _ => ⟨by decide, by decide⟩⟩
  have h := broadcast_summary_monotone "b"
    ⟨[], [⟨"b", "m", 1, 0, 1, 0, BroadcastStatus.completed, 0, none, some 2⟩],
     [⟨"b", 10, MessageStatus.failed, some "err", none, 0,
       some BroadcastMessageType.custom, 1⟩], []⟩
    [BOp.retryMsg 10 "ev1" 3, BOp.project 4] hinv ⟨trivial, trivial, trivial⟩
  obtain ⟨s', hs', hle, hcs⟩ := h.2
    ⟨"b", "m", 1, 0, 1, 0, BroadcastStatus.completed, 0, none, some 2⟩ (by decide)
  exact ⟨s', hs', hle, hcs (by decide)⟩

end Scheduling
